import Mathlib

/-!
Verification of the Coderrr backend LLM gateway.

Shallow embedding of the request-intake, rate-limiting, provider-registry and
response-pipeline logic of `backend/main.py`, `backend/schemas.py`,
`backend/config.py` and `backend/providers/*.py`.  Pure Python functions become
Lean functions; the stateful rate-limit store becomes explicit state passing
(the per-client timestamp list is threaded through `check_rate_limit`);
`time.time()` floats are modelled as rationals (only ordering and subtraction
are used); Python `ValueError`-raising validators return `Option`/`Except`.
-/

deriving instance DecidableEq for Except

/-! ## Python string primitives (str.strip, str.lower, substring `in`) -/

/-- The ASCII whitespace characters recognised by Python `str.strip()` and by
`re`'s character class for whitespace: space, tab, newline, carriage return,
vertical tab, form feed. -/
def isPySpace (c : Char) : Bool :=
  c = ' ' || c = '\t' || c = '\n' || c = '\r' || c = '\x0b' || c = '\x0c'

/-- Left part of Python `str.strip()`. -/
def pyLStrip (l : List Char) : List Char := l.dropWhile isPySpace

/-- Right part of Python `str.strip()`. -/
def pyRStrip (l : List Char) : List Char := (l.reverse.dropWhile isPySpace).reverse

/-- Python `str.strip()`: remove leading and trailing whitespace. -/
def pyStrip (l : List Char) : List Char := pyRStrip (pyLStrip l)

/-- Python `str.lower()` on one character (ASCII range, which is all the
blacklist comparison needs). -/
def pyLowerChar (c : Char) : Char :=
  if 'A' ≤ c ∧ c ≤ 'Z' then Char.ofNat (c.toNat + 32) else c

/-- Python `str.lower()`. -/
def pyLower (l : List Char) : List Char := l.map pyLowerChar

/-- Python substring test `pat in l`. -/
def containsSub (pat : List Char) : List Char → Bool
  | [] => pat.isEmpty
  | c :: t => pat.isPrefixOf (c :: t) || containsSub pat t

/-- Python truthiness of an optional string (`None` and `""` are falsy). -/
def pyTruthy : Option String → Bool
  | none => false
  | some s => !s.data.isEmpty

/-! ## Configuration (`backend/config.py` / `backend/main.py` defaults) -/

def MAX_PROMPT_LENGTH : Nat := 10000

def MAX_REQUEST_SIZE : Nat := 50000

def RATE_LIMIT_WINDOW : ℚ := 60

def RATE_LIMIT_MAX_REQUESTS : Nat := 30

/-! ## Request model and prompt validation
(`ChatRequest` in `backend/main.py` lines 68-101 = `backend/schemas.py` lines 19-52) -/

structure ConversationMessage where
  role : String
  content : String
  deriving DecidableEq, Repr

structure ChatRequest where
  prompt : String
  temperature : ℚ := 0.2
  max_tokens : Nat := 2000
  top_p : ℚ := 1
  conversation_history : Option (List ConversationMessage) := none
  deriving DecidableEq, Repr

/-- The rejection-phrase list of `ChatRequest.validate_prompt`. -/
def suspicious_patterns : List (List Char) :=
  ["ignore previous instructions".toList,
   "disregard system prompt".toList,
   "override instructions".toList,
   "bypass security".toList]

/-- The `@validator("prompt")` body: strip, reject when empty, reject when a
blacklisted phrase occurs in the lowercased value, else return the stripped
prompt. -/
def validate_prompt (v : List Char) : Option (List Char) :=
  let v := pyStrip v
  if v.isEmpty then none
  else if suspicious_patterns.any (fun pat => containsSub pat (pyLower v)) then none
  else some v

/-- The pydantic `Field(min_length=1, max_length=MAX_PROMPT_LENGTH)` bounds,
applied to the raw (untrimmed) prompt before the validator runs. -/
def prompt_field_ok (p : List Char) : Bool :=
  decide (1 ≤ p.length) && decide (p.length ≤ MAX_PROMPT_LENGTH)

/-- Whether a prompt passes `ChatRequest` validation: the `Field` length bounds
on the raw value, then `validate_prompt`. -/
def prompt_accepted (p : List Char) : Bool :=
  prompt_field_ok p && (validate_prompt p).isSome

/-! ## Rate limiter (`check_rate_limit`, `backend/main.py` lines 149-168)

The in-memory store maps a client ip to its timestamp list; the function only
reads and writes the calling client's entry, so it is embedded with that entry
passed and returned explicitly. -/

/-- The list-comprehension pruning step: keep timestamps still inside the
window. -/
def pruneTimestamps (now : ℚ) (l : List ℚ) : List ℚ :=
  l.filter (fun t => now - t < RATE_LIMIT_WINDOW)

/-- `check_rate_limit` for one client: prune, reject without recording when the
pruned count reaches the quota, else append the current time and allow. -/
def check_rate_limit (now : ℚ) (times : List ℚ) : Bool × List ℚ :=
  let pruned := pruneTimestamps now times
  if RATE_LIMIT_MAX_REQUESTS ≤ pruned.length then (false, pruned)
  else (true, pruned ++ [now])

/-- One client issuing a sequence of calls at the given times: the list of
allow/deny answers and the final stored timestamp list. -/
def run_calls : List ℚ → List ℚ → List Bool × List ℚ
  | [], times => ([], times)
  | now :: rest, times =>
    let r := check_rate_limit now times
    let r2 := run_calls rest r.2
    (r.1 :: r2.1, r2.2)

/-! ## Message building and dispatch (`chat`, `backend/main.py` lines 171-322) -/

/-- The fixed output-contract system prompt `SYSTEM_INSTRUCTIONS`
(`backend/main.py` lines 171-239). -/
def SYSTEM_INSTRUCTIONS : String :=
  "\nYou are Coderrr, a coding assistant that MUST respond with a JSON object for execution plans.\nWhen the user asks for code changes or tasks, produce a JSON object with this EXACT schema:\n\x7b\n  \"explanation\": \"Brief plain English explanation of what you will do and why\",\n  \"plan\": [\n    \x7b\n      \"action\": \"create_file\" | \"update_file\" | \"patch_file\" | \"delete_file\" | \"read_file\" | \"run_command\" | \"create_dir\" | \"delete_dir\" | \"list_dir\" | \"rename_dir\",\n      \"path\": \"relative/path/to/file/or/directory\",\n      \"content\": \"complete file content for create_file or update_file\",\n      \"oldContent\": \"content to find (for patch_file)\",\n      \"newContent\": \"content to replace with (for patch_file)\",\n      \"newPath\": \"new path (for rename_dir)\",\n      \"command\": \"shell command (for run_command)\",\n      \"summary\": \"one-line description for this step\"\n    \x7d\n  ]\n\x7d\n\nCRITICAL RULES:\n1. Return ONLY valid JSON. Wrap it in \x60\x60\x60json \x60\x60\x60 if you want, but the JSON must be valid.\n2. The \"explanation\" field is required and should be a clear, concise summary.\n3. Each item in \"plan\" must have \"action\" and \"summary\".\n4. For file operations, include \"path\".\n5. For create_file/update_file, include \"content\" with the COMPLETE file content.\n6. For patch_file, include \"oldContent\" and \"newContent\".\n7. For run_command, include \"command\".\n8. For directory operations:\n   - create_dir: just needs \"path\" for the directory to create\n   - delete_dir: just needs \"path\" for the empty directory to delete\n   - list_dir: just needs \"path\" for the directory to list\n   - rename_dir: needs \"path\" (old path) and \"newPath\" (new path)\n9. Use relative paths from the project root.\n10. Be explicit and conservative - small, clear steps are better than large complex ones.\n11. For test execution, use run_command with the appropriate test command (npm test, pytest, etc).\n\nOS-SPECIFIC COMMANDS:\n- On Windows systems: Use semicolon (;) to join multiple commands. Example: npm install ; npm run dev\n- On Unix/Linux/macOS: Use ampersand (&&) to join multiple commands. Example: npm install && npm run dev\n- When a command might fail, provide error handling or alternative commands for different OS platforms.\n- Be aware of path separators: Windows uses backslash (\\), Unix uses forward slash (/)\n\nExample response:\n\x60\x60\x60json\n\x7b\n  \"explanation\": \"I will create a new user authentication module with JWT support\",\n  \"plan\": [\n    \x7b\n      \"action\": \"create_dir\",\n      \"path\": \"src/auth\",\n      \"summary\": \"Create auth directory\"\n    \x7d,\n    \x7b\n      \"action\": \"create_file\",\n      \"path\": \"src/auth/index.py\",\n      \"content\": \"# Authentication module\\nimport jwt\\n\\ndef authenticate(user, password):\\n    # TODO: implement\\n    pass\",\n      \"summary\": \"Create authentication module\"\n    \x7d,\n    \x7b\n      \"action\": \"run_command\",\n      \"command\": \"pytest tests/test_auth.py\",\n      \"summary\": \"Run authentication tests\"\n    \x7d\n  ]\n\x7d\n\x60\x60\x60\n\nNow respond to the user\x27s request with a valid JSON plan.\n"

/-- The final user turn wrapping the prompt (`backend/main.py` line 304). -/
def user_wrap (prompt : String) : String :=
  "User request: " ++ prompt ++ "\n\nPlease output a JSON object with explanation and plan as described."

inductive Role
  | system
  | user
  | assistant
  deriving DecidableEq, Repr

/-- One chat message handed to a provider (the SDK message objects
`SystemMessage` / `UserMessage` / `AssistantMessage` carry a role tag and a
content string). -/
structure Msg where
  role : Role
  content : String
  deriving DecidableEq, Repr

/-- Python truthiness of the optional history list (`if chat_request.conversation_history:`). -/
def history_truthy : Option (List ConversationMessage) → Bool
  | none => false
  | some l => !l.isEmpty

/-- How one history entry is appended (`backend/main.py` lines 296-300): both
roles are wrapped into `UserMessage`s, with a role-dependent text prefix. -/
def hist_to_msg (m : ConversationMessage) : Msg :=
  if m.role = "user" then ⟨Role.user, "Previous user request: " ++ m.content⟩
  else ⟨Role.user, "Previous assistant response summary: " ++ m.content⟩

/-- The `messages` list assembled by the handler (`backend/main.py` lines
291-305): system instructions, wrapped history entries, final user turn. -/
def build_messages (req : ChatRequest) : List Msg :=
  [⟨Role.system, SYSTEM_INSTRUCTIONS⟩]
    ++ (if history_truthy req.conversation_history
        then (req.conversation_history.getD []).map hist_to_msg
        else [])
    ++ [⟨Role.user, user_wrap req.prompt⟩]

/-- The message list actually passed to `client.complete` (`backend/main.py`
lines 316-319): a fresh two-element list, independent of the assembled
`messages`. -/
def dispatched_messages (req : ChatRequest) : List Msg :=
  [⟨Role.system, SYSTEM_INSTRUCTIONS⟩, ⟨Role.user, user_wrap req.prompt⟩]

/-! ## The `/chat` endpoint pipeline (`backend/main.py` lines 255-330)

The handler is declared `async def chat(request: Request, raw_data: ChatRequest)`:
FastAPI JSON-parses the raw body and validates it into the `raw_data:
ChatRequest` parameter before the handler body runs, rejecting invalid bodies
with a request-validation error.  `parsed` below is the outcome of that
parse-and-validate step (the handler's own `request.json()` re-parse of the
same body necessarily yields the same value).  The returned `Nat` counts
provider invocations; the returned list is the client's rate-limit entry. -/

inductive ChatStatus
  | unprocessable
  | rateLimited
  | payloadTooLarge
  | completed (text : String)
  deriving DecidableEq, Repr

def chat_endpoint (now : ℚ) (clientTimes : List ℚ) (bodyLen : Nat)
    (parsed : Option ChatRequest) (complete : List Msg → String) :
    ChatStatus × Nat × List ℚ :=
  match parsed with
  | none => (ChatStatus.unprocessable, 0, clientTimes)
  | some req =>
    let rl := check_rate_limit now clientTimes
    if !rl.1 then (ChatStatus.rateLimited, 0, rl.2)
    else if MAX_REQUEST_SIZE < bodyLen then (ChatStatus.payloadTooLarge, 0, rl.2)
    else (ChatStatus.completed (complete (dispatched_messages req)), 1, rl.2)

/-! ## Response schema and validation
(`ChatResponse` in `backend/main.py` lines 104-130 = `backend/schemas.py` lines 55-81) -/

inductive PlanAction
  | create_file
  | update_file
  | patch_file
  | delete_file
  | read_file
  | run_command
  | create_dir
  | delete_dir
  | list_dir
  | rename_dir
  deriving DecidableEq, Repr

/-- One plan step (the nested `ChatResponse.Plan` pydantic model).  Internal
field names are the snake_case ones; `old_content`, `new_content`, `old_path`
and `new_path` additionally carry the external aliases `oldContent`,
`newContent`, `oldPath`, `newPath`. -/
structure Plan where
  action : PlanAction
  path : Option String := none
  content : Option String := none
  old_content : Option String := none
  new_content : Option String := none
  old_path : Option String := none
  new_path : Option String := none
  command : Option String := none
  summary : String
  deriving DecidableEq, Repr

structure ChatResponse where
  explanation : String
  plan : List Plan
  deriving DecidableEq, Repr

/-- POSIX `os.path.isabs`: the path starts with a slash. -/
def isabs (s : String) : Bool :=
  match s.data with
  | [] => false
  | c :: _ => c = '/'

/-- The per-step checks of the `check_fields` model validator: create/update
need truthy content, patch needs truthy old or new content; all other actions
(including `rename_dir`) are not checked. -/
def check_step (p : Plan) : Bool :=
  !(((p.action == PlanAction.create_file || p.action == PlanAction.update_file)
       && !pyTruthy p.content)
    || (p.action == PlanAction.patch_file
       && !(pyTruthy p.old_content || pyTruthy p.new_content)))

/-- The path-normalisation branch of `check_fields`: `if p.path and
os.path.isabs(p.path): p.path = os.path.relpath(p.path)`.  `relpath` (whose
result depends on the process working directory) is passed in explicitly. -/
def norm_step (relpath : String → String) (p : Plan) : Plan :=
  match p.path with
  | none => p
  | some s => if !s.data.isEmpty && isabs s then { p with path := some (relpath s) } else p

/-- The `for p in self.plan` loop of `check_fields`: stop with an error at the
first invalid step, otherwise normalise every step's path. -/
def check_fields_go (relpath : String → String) : List Plan → Option (List Plan)
  | [] => some []
  | p :: ps =>
    if check_step p then (check_fields_go relpath ps).map (norm_step relpath p :: ·)
    else none

/-- The `@model_validator(mode="after") check_fields` of `ChatResponse`:
`none` models the raised `ValueError` (surfaced as a pydantic
`ValidationError`). -/
def check_fields (relpath : String → String) (r : ChatResponse) : Option ChatResponse :=
  (check_fields_go relpath r.plan).map (fun ps => { explanation := r.explanation, plan := ps })

/-! ## Serialization and parsing of plan steps

The response travels through two serialisation steps.  The handler returns
`validated_response.model_dump()` (`backend/main.py` line 372), a dict keyed by
the internal field names (pydantic emits aliases only under `by_alias=True`,
which that call does not pass).  The route is declared with
`response_model=ChatResponse` (`backend/main.py` line 255), so FastAPI then
validates this returned value against `ChatResponse` — `populate_by_name`
lets the internal names repopulate the model — and serialises the result with
`by_alias=True` (FastAPI's `response_model_by_alias` default), so the wire
response carries the external aliases `oldContent`/`newContent`/`oldPath`/`newPath`.
Parsing (`ChatResponse(**parsed_data)`, line 351) accepts the external alias of
an aliased field and, because of `model_config = {"populate_by_name": True}`,
the internal name as well, the alias taking precedence.  A step's fields other
than `action` and `summary` are optional strings, so a dumped step is an
association list from key to `Option String` (`none` = JSON null). -/

def dumpAction : PlanAction → String
  | PlanAction.create_file => "create_file"
  | PlanAction.update_file => "update_file"
  | PlanAction.patch_file => "patch_file"
  | PlanAction.delete_file => "delete_file"
  | PlanAction.read_file => "read_file"
  | PlanAction.run_command => "run_command"
  | PlanAction.create_dir => "create_dir"
  | PlanAction.delete_dir => "delete_dir"
  | PlanAction.list_dir => "list_dir"
  | PlanAction.rename_dir => "rename_dir"

def parseAction : String → Option PlanAction
  | "create_file" => some PlanAction.create_file
  | "update_file" => some PlanAction.update_file
  | "patch_file" => some PlanAction.patch_file
  | "delete_file" => some PlanAction.delete_file
  | "read_file" => some PlanAction.read_file
  | "run_command" => some PlanAction.run_command
  | "create_dir" => some PlanAction.create_dir
  | "delete_dir" => some PlanAction.delete_dir
  | "list_dir" => some PlanAction.list_dir
  | "rename_dir" => some PlanAction.rename_dir
  | _ => none

/-- `model_dump()` of one plan step: keys are the internal field names, in
field order, `None` values included. -/
def model_dump_plan (p : Plan) : List (String × Option String) :=
  [("action", some (dumpAction p.action)),
   ("path", p.path),
   ("content", p.content),
   ("old_content", p.old_content),
   ("new_content", p.new_content),
   ("old_path", p.old_path),
   ("new_path", p.new_path),
   ("command", p.command),
   ("summary", some p.summary)]

/-- `model_dump()` of a whole response: the explanation and the dumped steps. -/
def model_dump_response (r : ChatResponse) : String × List (List (String × Option String)) :=
  (r.explanation, r.plan.map model_dump_plan)

/-- `model_dump(by_alias=True)` of one plan step, as FastAPI's response-model
serialisation performs it: aliased fields are emitted under their external
alias, every other field under its name, in field order, `None` values
included. -/
def model_dump_plan_by_alias (p : Plan) : List (String × Option String) :=
  [("action", some (dumpAction p.action)),
   ("path", p.path),
   ("content", p.content),
   ("oldContent", p.old_content),
   ("newContent", p.new_content),
   ("oldPath", p.old_path),
   ("newPath", p.new_path),
   ("command", p.command),
   ("summary", some p.summary)]

/-- Key lookup in a dumped object: `some v` when the key is present with value
`v` (`v = none` being JSON null), `none` when the key is absent. -/
def objLookup (d : List (String × Option String)) (k : String) : Option (Option String) :=
  List.lookup k d

/-- Reading a plain (unaliased) optional field: absent and null both become
`None`. -/
def getField (d : List (String × Option String)) (name : String) : Option String :=
  (objLookup d name).bind id

/-- Reading an aliased field under `populate_by_name`: the alias key wins when
present, else the internal field name is consulted. -/
def getAliasedField (d : List (String × Option String)) (ali name : String) : Option String :=
  match objLookup d ali with
  | some v => v
  | none => getField d name

/-- Pydantic construction of one plan step from a parsed JSON object: `action`
must be one of the literals and `summary` must be a present non-null string;
every other field is optional. -/
def parse_plan_step (d : List (String × Option String)) : Option Plan :=
  match (getField d "action").bind parseAction, getField d "summary" with
  | some a, some s =>
    some { action := a
           path := getField d "path"
           content := getField d "content"
           old_content := getAliasedField d "oldContent" "old_content"
           new_content := getAliasedField d "newContent" "new_content"
           old_path := getAliasedField d "oldPath" "old_path"
           new_path := getAliasedField d "newPath" "new_path"
           command := getField d "command"
           summary := s }
  | _, _ => none

/-- Element-wise pydantic validation of the `plan` list: every dumped step
must parse. -/
def parse_plan_list : List (List (String × Option String)) → Option (List Plan)
  | [] => some []
  | d :: ds =>
    match parse_plan_step d with
    | none => none
    | some p => (parse_plan_list ds).map (p :: ·)

/-- Pydantic field construction of a whole `ChatResponse` from parsed JSON
(before the `check_fields` validator runs). -/
def parse_response (raw : String × List (List (String × Option String))) : Option ChatResponse :=
  (parse_plan_list raw.2).map (fun ps => { explanation := raw.1, plan := ps })

/-- Full `ChatResponse(**parsed_data)`: field construction followed by the
`check_fields` validator. -/
def ChatResponse_validate (relpath : String → String)
    (raw : String × List (List (String × Option String))) : Option ChatResponse :=
  (parse_response raw).bind (check_fields relpath)

/-- The endpoint's full response serialisation: the handler's `model_dump()`
dict is validated against the declared `response_model=ChatResponse` and the
result is serialised with `by_alias=True`, emitting the external aliases on
the wire. -/
def response_serialize (relpath : String → String) (r : ChatResponse) :
    Option (String × List (List (String × Option String))) :=
  (ChatResponse_validate relpath (model_dump_response r)).map
    (fun r2 => (r2.explanation, r2.plan.map model_dump_plan_by_alias))

/-! ## Fence extraction (`backend/main.py` lines 342-347)

Model of `re.search` with the pattern matching a fenced block (three backticks,
an optional `json` tag, lazily captured inner content with the whitespace
adjacent to the fences absorbed, three closing backticks): the scan tries each
start position left to right; at a position starting with three backticks it
optionally consumes a literal `json` tag (the optional group is greedy and
consuming it never loses a match, since the tag contains no backtick), skips
the maximal whitespace run (the pattern's first whitespace star; backtracking
it shorter never changes the captured text because whitespace can equally be
captured), and then the lazy group ends at the earliest following triple
backtick, with the whitespace run adjacent to it absorbed by the pattern's
second whitespace star. -/

/-- The backtick character. -/
def btick : Char := Char.ofNat 96

/-- The three-backtick fence delimiter. -/
def fenceMark : List Char := [btick, btick, btick]

/-- The optional `json` tag after the opening fence. -/
def jsonTag : List Char := "json".toList

/-- Content before the first closing fence: `some` the preceding characters
when a triple backtick occurs, `none` otherwise. -/
def findClose : List Char → Option (List Char)
  | [] => none
  | c :: t =>
    if fenceMark.isPrefixOf (c :: t) then some []
    else (findClose t).map (c :: ·)

/-- Matching the remainder after an opening fence: optional `json` tag, leading
whitespace skip, inner content up to the first closing fence with its trailing
whitespace stripped. -/
def matchFence (rest : List Char) : Option (List Char) :=
  let r1 := if jsonTag.isPrefixOf rest then rest.drop 4 else rest
  let r2 := r1.dropWhile isPySpace
  (findClose r2).map pyRStrip

/-- Left-to-right scan for the first start position where the fence pattern
matches. -/
def extractAux : List Char → Option (List Char)
  | [] => none
  | c :: t =>
    if fenceMark.isPrefixOf (c :: t) then
      match matchFence (List.drop 3 (c :: t)) with
      | some inner => some inner
      | none => extractAux t
    else extractAux t

/-- The extraction step of the response pipeline: the first fenced block's
inner content when the pattern matches, else the whole text stripped
(`json_str = text.strip()`). -/
def extract (t : List Char) : List Char :=
  match extractAux t with
  | some inner => inner
  | none => pyStrip t

/-- The inner content the pattern captures for a fence wrapping `inner`:
optional `json` tag dropped, leading and trailing whitespace stripped. -/
def innerCapture (inner : List Char) : List Char :=
  pyRStrip ((if jsonTag.isPrefixOf inner then inner.drop 4 else inner).dropWhile isPySpace)

/-- Whether a text contains a triple backtick at all. -/
def hasFenceMark (t : List Char) : Prop := fenceMark <:+: t

instance (t : List Char) : Decidable (hasFenceMark t) := by
  unfold hasFenceMark
  infer_instance

/-! ## Provider registry (`backend/providers/base.py` lines 41-89 and the
adapter constructors) -/

def PROVIDER_IDS : List String := ["openai", "anthropic", "openrouter", "ollama", "azure"]

/-- The two failure modes of `get_provider` (both `ValueError`s in Python,
distinguished by their message). -/
inductive ProviderError
  | unknownProvider
  | missingCredential
  deriving DecidableEq, Repr

/-- An adapter instance as far as the registry contract is concerned: which
adapter class, the stored key, and the resolved endpoint (`none` = the
underlying SDK client's own default, for the OpenAI and Anthropic adapters
constructed without an explicit endpoint). -/
structure ProviderInstance where
  provider_id : String
  api_key : Option String
  endpoint : Option String
  deriving DecidableEq, Repr

/-- Each adapter's built-in default endpoint (`DEFAULT_ENDPOINT` class
attributes; the OpenAI and Anthropic adapters defer to their SDK default). -/
def defaultEndpoint (id : String) : Option String :=
  if id = "openrouter" then some "https://openrouter.ai/api/v1"
  else if id = "ollama" then some "http://localhost:11434"
  else if id = "azure" then some "https://models.github.ai/inference"
  else none

/-- The adapter constructors: `endpoint or DEFAULT_ENDPOINT` resolution for
OpenRouter, Ollama and Azure (`or` is Python truthiness), `if endpoint:
base_url = endpoint` for OpenAI and Anthropic, and Ollama ignoring any key. -/
def mk_provider (id : String) (api_key : Option String) (endpoint : Option String) :
    ProviderInstance :=
  let ep := if pyTruthy endpoint then endpoint else defaultEndpoint id
  if id = "ollama" then ⟨id, none, ep⟩ else ⟨id, api_key, ep⟩

/-- `get_provider(provider_id, api_key, endpoint)`: unknown id first, then the
Ollama no-credential branch, then the missing-key check, then construction with
the endpoint forwarded only when truthy. -/
def get_provider (provider_id : String) (api_key : Option String)
    (endpoint : Option String) : Except ProviderError ProviderInstance :=
  if !(PROVIDER_IDS.contains provider_id) then Except.error ProviderError.unknownProvider
  else if provider_id = "ollama" then Except.ok (mk_provider provider_id none endpoint)
  else if !pyTruthy api_key then Except.error ProviderError.missingCredential
  else if pyTruthy endpoint then Except.ok (mk_provider provider_id api_key endpoint)
  else Except.ok (mk_provider provider_id api_key none)

/-! ## Health endpoint (`health_check`, `backend/main.py` lines 390-397) -/

structure HealthResponse where
  status : String
  model : String
  token_configured : Bool
  deriving DecidableEq, Repr

/-- `GET /health`: a fixed status, the configured model name, and only the
truthiness of the startup credential. -/
def health_check (token : Option String) (model_name : String) : HealthResponse :=
  { status := "healthy", model := model_name, token_configured := pyTruthy token }

/-! ## Helper lemmas about the `check_fields` validator -/

theorem check_fields_go_eq (relpath : String → String) (l : List Plan) :
    check_fields_go relpath l =
      if l.all check_step then some (l.map (norm_step relpath)) else none := by
  induction l with
  | nil => simp [check_fields_go]
  | cons p ps ih =>
    by_cases hc : check_step p
    · by_cases ha : ps.all check_step <;>
        simp [check_fields_go, hc, ha, ih]
    · simp [check_fields_go, hc]

theorem check_fields_eq (relpath : String → String) (r : ChatResponse) :
    check_fields relpath r =
      if r.plan.all check_step
      then some { explanation := r.explanation, plan := r.plan.map (norm_step relpath) }
      else none := by
  unfold check_fields
  rw [check_fields_go_eq]
  by_cases h : r.plan.all check_step <;> simp [h]

theorem norm_step_frame (relpath : String → String) (p : Plan) :
    (norm_step relpath p).action = p.action
      ∧ (norm_step relpath p).content = p.content
      ∧ (norm_step relpath p).old_content = p.old_content
      ∧ (norm_step relpath p).new_content = p.new_content
      ∧ (norm_step relpath p).old_path = p.old_path
      ∧ (norm_step relpath p).new_path = p.new_path
      ∧ (norm_step relpath p).command = p.command
      ∧ (norm_step relpath p).summary = p.summary := by
  rcases hp : p.path with _ | s
  · simp [norm_step, hp]
  · by_cases h : !s.data.isEmpty && isabs s <;> simp [norm_step, hp, h]

theorem norm_step_path (relpath : String → String) (p : Plan) :
    (norm_step relpath p).path =
      match p.path with
      | none => none
      | some s => if !s.data.isEmpty && isabs s then some (relpath s) else some s := by
  rcases hp : p.path with _ | s
  · simp [norm_step, hp]
  · by_cases h : !s.data.isEmpty && isabs s <;> simp [norm_step, hp, h]

theorem check_step_norm (relpath : String → String) (p : Plan) :
    check_step (norm_step relpath p) = check_step p := by
  unfold check_step
  have h := norm_step_frame relpath p
  rw [h.1, h.2.1, h.2.2.1, h.2.2.2.1]

theorem norm_step_idem (relpath : String → String)
    (hrel : ∀ s, isabs (relpath s) = false) (p : Plan) :
    norm_step relpath (norm_step relpath p) = norm_step relpath p := by
  rcases hp : p.path with _ | s
  · simp [norm_step, hp]
  · by_cases h : !s.data.isEmpty && isabs s
    · simp [norm_step, hp, h, hrel s]
    · simp [norm_step, hp, h]

/-! ## Helper lemmas about serialisation -/

theorem parse_dump_step (p : Plan) :
    parse_plan_step (model_dump_plan p) = some p := by
  cases p with
  | mk action path content old_content new_content old_path new_path command summary =>
    cases action <;>
      simp [model_dump_plan, parse_plan_step, getField, getAliasedField, objLookup,
        List.lookup, dumpAction, parseAction]

theorem parse_dump_steps (l : List Plan) :
    parse_plan_list (l.map model_dump_plan) = some l := by
  induction l with
  | nil => rfl
  | cons p ps ih => simp [parse_plan_list, parse_dump_step p, ih]

theorem parse_dump_response (r : ChatResponse) :
    parse_response (model_dump_response r) = some r := by
  cases r with
  | mk explanation plan =>
    unfold parse_response model_dump_response
    rw [parse_dump_steps]
    rfl

/-- Identity stand-in for `os.path.relpath` in concrete evaluations. -/
def idRelpath : String → String := fun s => s

/-- Concrete valid response used to exhibit serialisation behaviour. -/
def c4_step : Plan :=
  { action := PlanAction.patch_file, path := some "a.txt", old_content := some "x",
    new_content := some "y", summary := "patch" }

def c4_resp : ChatResponse := { explanation := "e", plan := [c4_step] }

/-- Concrete valid response with a `rename_dir` step whose `new_path` is
missing. -/
def c2_resp : ChatResponse :=
  { explanation := "e",
    plan := [{ action := PlanAction.rename_dir, path := some "olddir", summary := "rename" }] }

/-- Concrete valid response with absolute `old_path`/`new_path` on a
`rename_dir` step. -/
def c10_resp : ChatResponse :=
  { explanation := "e",
    plan := [{ action := PlanAction.rename_dir, path := some "dir",
               old_path := some "/abs/a", new_path := some "/abs/b", summary := "mv" }] }

/-- C2 counterexample: a plan step with action `rename_dir` and no `new_path`
(nor `old_path`) passes `ChatResponse` validation unchanged — the claimed
rename invariant is never checked, so no `SchemaViolation` is raised. -/
theorem rename_dir_missing_new_path_passes_cex :
    check_fields idRelpath c2_resp = some c2_resp
      ∧ (c2_resp.plan.map Plan.new_path) = [none] := by
  exact ⟨by decide, by decide⟩

/-- C2 (amended): `ChatResponse` validation succeeds exactly when every plan
step passes the per-step check, and that check only constrains `create_file`
and `update_file` (truthy content) and `patch_file` (truthy old or new
content); `rename_dir` steps are never constrained, so one missing `new_path`
passes, as does one with both paths relative. -/
theorem check_fields_action_invariants :
    (∀ (relpath : String → String) (r : ChatResponse),
        (check_fields relpath r).isSome = r.plan.all check_step)
    ∧ (∀ p : Plan, check_step p = true ↔
        (((p.action = PlanAction.create_file ∨ p.action = PlanAction.update_file) →
            pyTruthy p.content = true)
          ∧ (p.action = PlanAction.patch_file →
            (pyTruthy p.old_content = true ∨ pyTruthy p.new_content = true))))
    ∧ (∀ p : Plan, p.action = PlanAction.rename_dir → check_step p = true) := by
  refine ⟨?_, ?_, ?_⟩
  · intro relpath r
    rw [check_fields_eq]
    by_cases h : r.plan.all check_step <;> simp [h]
  · intro p
    cases p with
    | mk action path content old_content new_content old_path new_path command summary =>
      cases action <;> simp [check_step]
  · intro p h
    cases p with
    | mk action path content old_content new_content old_path new_path command summary =>
      cases action <;> simp_all [check_step]

/-- C2 witness: the amended theorem applied to the concrete unchecked
`rename_dir` step. -/
theorem check_fields_action_invariants_witness :
    check_step { action := PlanAction.rename_dir, path := some "olddir",
                 summary := "rename" } = true :=
  check_fields_action_invariants.2.2
    { action := PlanAction.rename_dir, path := some "olddir", summary := "rename" } rfl

/-- C10: successful `ChatResponse` validation rewrites only the `path` field of
plan steps (and only when truthy and absolute, via `relpath`); the explanation
and every other step field — `action`, `content`, `old_content`,
`new_content`, `old_path`, `new_path`, `command`, `summary` — are returned
exactly as parsed, so absolute `old_path`/`new_path` values are not rewritten. -/
theorem check_fields_frame (relpath : String → String) (r r2 : ChatResponse)
    (h : check_fields relpath r = some r2) :
    r2.explanation = r.explanation
      ∧ r2.plan = r.plan.map (norm_step relpath)
      ∧ ∀ p : Plan,
          (norm_step relpath p).action = p.action
          ∧ (norm_step relpath p).content = p.content
          ∧ (norm_step relpath p).old_content = p.old_content
          ∧ (norm_step relpath p).new_content = p.new_content
          ∧ (norm_step relpath p).old_path = p.old_path
          ∧ (norm_step relpath p).new_path = p.new_path
          ∧ (norm_step relpath p).command = p.command
          ∧ (norm_step relpath p).summary = p.summary
          ∧ (norm_step relpath p).path =
              (match p.path with
               | none => none
               | some s => if !s.data.isEmpty && isabs s then some (relpath s) else some s) := by
  rw [check_fields_eq] at h
  by_cases ha : r.plan.all check_step
  · rw [if_pos ha] at h
    have h2 := Option.some.inj h
    refine ⟨?_, ?_, ?_⟩
    · rw [← h2]
    · rw [← h2]
    · intro p
      have hf := norm_step_frame relpath p
      exact ⟨hf.1, hf.2.1, hf.2.2.1, hf.2.2.2.1, hf.2.2.2.2.1, hf.2.2.2.2.2.1,
        hf.2.2.2.2.2.2.1, hf.2.2.2.2.2.2.2, norm_step_path relpath p⟩
  · rw [if_neg ha] at h
    exact absurd h (by simp)

/-- C10 witness: the frame theorem at a concrete valid response carrying
absolute `old_path`/`new_path` values, which validation returns untouched. -/
theorem check_fields_frame_witness :
    check_fields idRelpath c10_resp = some c10_resp
      ∧ c10_resp.plan = c10_resp.plan.map (norm_step idRelpath) :=
  ⟨by decide, (check_fields_frame idRelpath c10_resp c10_resp (by decide)).2.1⟩

/-- Successful validation is a fixpoint: re-validating an already validated
response succeeds and changes nothing (the per-step checks are insensitive to
path normalisation and, when `relpath` never returns an absolute path,
normalisation is idempotent). -/
theorem check_fields_fixpoint (relpath : String → String)
    (hrel : ∀ s, isabs (relpath s) = false) (r0 r : ChatResponse)
    (h : check_fields relpath r0 = some r) : check_fields relpath r = some r := by
  rw [check_fields_eq] at h
  by_cases ha : r0.plan.all check_step
  · rw [if_pos ha] at h
    have h2 := Option.some.inj h
    rw [check_fields_eq]
    have hall : r.plan.all check_step = true := by
      rw [← h2]
      simp only [List.all_map]
      have hcomp : (check_step ∘ norm_step relpath) = check_step := by
        funext p
        exact check_step_norm relpath p
      rw [hcomp]
      exact ha
    rw [if_pos hall]
    have hidem : (norm_step relpath ∘ norm_step relpath) = norm_step relpath := by
      funext p
      exact norm_step_idem relpath hrel p
    rw [← h2]
    simp only [List.map_map]
    rw [hidem]
  · rw [if_neg ha] at h
    exact absurd h (by simp)

theorem parse_dump_step_alias (p : Plan) :
    parse_plan_step (model_dump_plan_by_alias p) = some p := by
  cases p with
  | mk action path content old_content new_content old_path new_path command summary =>
    cases action <;>
      simp [model_dump_plan_by_alias, parse_plan_step, getField, getAliasedField,
        objLookup, List.lookup, dumpAction, parseAction]

theorem parse_dump_steps_alias (l : List Plan) :
    parse_plan_list (l.map model_dump_plan_by_alias) = some l := by
  induction l with
  | nil => rfl
  | cons p ps ih => simp [parse_plan_list, parse_dump_step_alias p, ih]

theorem parse_dump_response_alias (r : ChatResponse) :
    parse_response (r.explanation, r.plan.map model_dump_plan_by_alias) = some r := by
  unfold parse_response
  rw [show (r.explanation, r.plan.map model_dump_plan_by_alias).2
      = r.plan.map model_dump_plan_by_alias from rfl]
  rw [parse_dump_steps_alias]
  rfl

/-- C4: serialising a valid `ChatResponse` preserves the original external
field names — the endpoint's response serialisation (the handler's
`model_dump()` value re-validated against `response_model=ChatResponse` and
emitted with `by_alias=True`) produces exactly the keys `action`, `path`,
`content`, `oldContent`, `newContent`, `oldPath`, `newPath`, `command`,
`summary` — and serialising then re-parsing and re-validating yields a
response whose plan equals the original's field for field. -/
theorem chatresponse_serialize_roundtrip (relpath : String → String)
    (r0 r : ChatResponse)
    (hrel : ∀ s, isabs (relpath s) = false)
    (h : check_fields relpath r0 = some r) :
    response_serialize relpath r
        = some (r.explanation, r.plan.map model_dump_plan_by_alias)
      ∧ (∀ p : Plan, (model_dump_plan_by_alias p).map Prod.fst =
          ["action", "path", "content", "oldContent", "newContent", "oldPath",
           "newPath", "command", "summary"])
      ∧ ChatResponse_validate relpath
          (r.explanation, r.plan.map model_dump_plan_by_alias) = some r := by
  have hfix : check_fields relpath r = some r :=
    check_fields_fixpoint relpath hrel r0 r h
  refine ⟨?_, fun p => rfl, ?_⟩
  · unfold response_serialize ChatResponse_validate
    rw [parse_dump_response, Option.some_bind', hfix]
    rfl
  · unfold ChatResponse_validate
    rw [parse_dump_response_alias, Option.some_bind', hfix]

/-- C4 witness: the serialisation theorem at a concrete valid `patch_file`
response: the wire output carries the `oldContent` alias with its value, and
the serialisation is the by-alias dump of the response itself. -/
theorem chatresponse_serialize_roundtrip_witness :
    response_serialize (fun _ => "rel") c4_resp
        = some (c4_resp.explanation, c4_resp.plan.map model_dump_plan_by_alias)
      ∧ objLookup (model_dump_plan_by_alias c4_step) "oldContent" = some (some "x") :=
  ⟨(chatresponse_serialize_roundtrip (fun _ => "rel") c4_resp c4_resp
      (by intro s; show isabs "rel" = false; decide) (by decide)).1,
   by decide⟩

/-! ## Claims about dispatch, endpoint ordering, registry and health -/

/-- Concrete validated request with a non-empty conversation history whose
single entry is an assistant turn. -/
def c1_req : ChatRequest :=
  { prompt := "add tests",
    conversation_history := some [{ role := "assistant", content := "created foo.py" }] }

/-- C1 (code-bug evidence): the message sequence passed to the provider call is
always exactly system instructions plus the wrapped prompt — independent of
`conversation_history` — so no history entry reaches the dispatched sequence;
moreover even the handler's side-assembled `messages` list tags assistant
history entries as user turns, and for the concrete request with one assistant
entry the dispatched list differs from the assembled one. -/
theorem chat_dispatch_ignores_history :
    (∀ req : ChatRequest,
        dispatched_messages req =
          [{ role := Role.system, content := SYSTEM_INSTRUCTIONS },
           { role := Role.user, content := user_wrap req.prompt }])
    ∧ (∀ (p : String) (h1 h2 : Option (List ConversationMessage)),
        dispatched_messages { prompt := p, conversation_history := h1 }
          = dispatched_messages { prompt := p, conversation_history := h2 })
    ∧ (build_messages c1_req).all (fun m => !(m.role == Role.assistant)) = true
    ∧ dispatched_messages c1_req ≠ build_messages c1_req := by
  refine ⟨fun req => rfl, fun p h1 h2 => rfl, by decide, ?_⟩
  intro h
  have hlen := congrArg List.length h
  simp [build_messages, dispatched_messages, c1_req, history_truthy] at hlen

/-- Concrete parsed request and provider double for the endpoint scenarios. -/
def c3_req : ChatRequest := { prompt := "make a file" }

def c3_complete : List Msg → String := fun _ => ""

/-- C3 (code-bug evidence): an oversized body that fails body
parsing/validation is rejected by the framework's parameter validation — not
with 413 — because parsing happens before the handler's size check; an
oversized body that parses is rejected with 413; and in every over-size case
the provider double records zero calls. -/
theorem chat_endpoint_oversized_behavior :
    chat_endpoint 0 [] 60000 none c3_complete = (ChatStatus.unprocessable, 0, [])
      ∧ chat_endpoint 0 [] 60000 (some c3_req) c3_complete
          = (ChatStatus.payloadTooLarge, 0, [0])
      ∧ ∀ (now : ℚ) (times : List ℚ) (bodyLen : Nat) (parsed : Option ChatRequest)
          (complete : List Msg → String), MAX_REQUEST_SIZE < bodyLen →
          (chat_endpoint now times bodyLen parsed complete).2.1 = 0 := by
  refine ⟨rfl, rfl, ?_⟩
  intro now times bodyLen parsed complete h
  cases parsed with
  | none => rfl
  | some req =>
    by_cases hr : (check_rate_limit now times).1 <;>
      simp [chat_endpoint, hr, h]

/-- C3 witness: the zero-provider-calls clause at its concrete oversized
input. -/
theorem chat_endpoint_oversized_behavior_witness :
    MAX_REQUEST_SIZE < 60000
      ∧ (chat_endpoint 0 [] 60000 (some c3_req) c3_complete).2.1 = 0 :=
  ⟨by decide,
   chat_endpoint_oversized_behavior.2.2 0 [] 60000 (some c3_req) c3_complete (by decide)⟩

/-- C8: the registry fails with `unknownProvider` exactly on unregistered ids,
fails with `missingCredential` exactly on registered non-ollama ids without a
truthy key, and otherwise returns an instance whose endpoint is the supplied
one when truthy, else the adapter's built-in default. -/
theorem get_provider_spec (id : String) (key ep : Option String) :
    (get_provider id key ep = Except.error ProviderError.unknownProvider ↔ id ∉ PROVIDER_IDS)
    ∧ (get_provider id key ep = Except.error ProviderError.missingCredential ↔
        (id ∈ PROVIDER_IDS ∧ id ≠ "ollama" ∧ pyTruthy key = false))
    ∧ (∀ inst, get_provider id key ep = Except.ok inst →
        inst.endpoint = if pyTruthy ep then ep else defaultEndpoint id)
    ∧ ((∃ inst, get_provider id key ep = Except.ok inst) ↔
        (id ∈ PROVIDER_IDS ∧ (id = "ollama" ∨ pyTruthy key = true))) := by
  by_cases hm : id ∈ PROVIDER_IDS
  · have hc : PROVIDER_IDS.contains id = true := List.elem_iff.mpr hm
    by_cases ho : id = "ollama"
    · subst ho
      simp [get_provider, hc, hm, mk_provider]
    · by_cases hk : pyTruthy key
      · have hnone : pyTruthy (none : Option String) = false := rfl
        by_cases he : pyTruthy ep <;>
          simp [get_provider, hc, hm, ho, hk, he, mk_provider, hnone]
      · simp [get_provider, hc, hm, ho, hk]
  · have hc : PROVIDER_IDS.contains id = false := by
      rw [← Bool.not_eq_true]
      intro hcon
      exact hm (List.elem_iff.mp hcon)
    simp [get_provider, hc, hm]

/-- C8 witness: the registry at concrete inputs — an unknown id fails with
`unknownProvider`, and the local-inference provider resolves without a key to
its built-in default endpoint. -/
theorem get_provider_spec_witness :
    get_provider "foo" (some "k") none = Except.error ProviderError.unknownProvider
      ∧ (∀ inst, get_provider "ollama" none none = Except.ok inst →
          inst.endpoint = if pyTruthy none then none else defaultEndpoint "ollama") :=
  ⟨(get_provider_spec "foo" (some "k") none).1.mpr (by decide),
   (get_provider_spec "ollama" none none).2.2.1⟩

/-- C9: the `/health` response is a function of the model name and the
credential's truthiness only — two configurations whose credentials are both
set (or both unset) produce identical responses — and its fields are the fixed
status, the model name, and the boolean flag, so the credential value itself
appears in no field. -/
theorem health_check_noninterference :
    (∀ (t1 t2 : Option String) (m : String),
        pyTruthy t1 = pyTruthy t2 → health_check t1 m = health_check t2 m)
    ∧ (∀ (t : Option String) (m : String),
        (health_check t m).status = "healthy"
          ∧ (health_check t m).model = m
          ∧ (health_check t m).token_configured = pyTruthy t) := by
  constructor
  · intro t1 t2 m h
    unfold health_check
    rw [h]
  · intro t m
    exact ⟨rfl, rfl, rfl⟩

/-- C9 witness: two distinct set credentials yield identical health
responses. -/
theorem health_check_noninterference_witness :
    pyTruthy (some "ghp_secretA") = pyTruthy (some "ghp_secretB")
      ∧ health_check (some "ghp_secretA") "openai/gpt-4o"
          = health_check (some "ghp_secretB") "openai/gpt-4o" :=
  ⟨by decide,
   health_check_noninterference.1 (some "ghp_secretA") (some "ghp_secretB")
     "openai/gpt-4o" (by decide)⟩

/-! ## Helper lemmas about the rate limiter -/

theorem pruneTimestamps_eq_self (now : ℚ) (l : List ℚ)
    (h : ∀ t ∈ l, now - t < RATE_LIMIT_WINDOW) :
    pruneTimestamps now l = l := by
  unfold pruneTimestamps
  exact List.filter_eq_self.mpr (fun t ht => by simpa using h t ht)

theorem check_rate_limit_allowed (now : ℚ) (times : List ℚ)
    (hprune : ∀ t ∈ times, now - t < RATE_LIMIT_WINDOW)
    (hlt : times.length < RATE_LIMIT_MAX_REQUESTS) :
    check_rate_limit now times = (true, times ++ [now]) := by
  unfold check_rate_limit
  rw [pruneTimestamps_eq_self now times hprune]
  rw [if_neg (by omega)]

theorem run_calls_all_allowed (ts : List ℚ) : ∀ (times : List ℚ),
    (∀ t ∈ times, ∀ n ∈ ts, n - t < RATE_LIMIT_WINDOW) →
    (∀ x ∈ ts, ∀ y ∈ ts, y - x < RATE_LIMIT_WINDOW) →
    times.length + ts.length ≤ RATE_LIMIT_MAX_REQUESTS →
    run_calls ts times = (List.replicate ts.length true, times ++ ts) := by
  induction ts with
  | nil =>
    intro times _ _ _
    simp [run_calls]
  | cons now rest ih =>
    intro times htimes hwin hlen
    have hprune : ∀ t ∈ times, now - t < RATE_LIMIT_WINDOW :=
      fun t ht => htimes t ht now (List.mem_cons_self now rest)
    have hlt : times.length < RATE_LIMIT_MAX_REQUESTS := by
      simp only [List.length_cons] at hlen
      omega
    have hcall := check_rate_limit_allowed now times hprune hlt
    have htimes2 : ∀ t ∈ times ++ [now], ∀ n ∈ rest, n - t < RATE_LIMIT_WINDOW := by
      intro t ht n hn
      rcases List.mem_append.mp ht with h1 | h1
      · exact htimes t h1 n (List.mem_cons_of_mem now hn)
      · rw [List.mem_singleton.mp h1]
        exact hwin now (List.mem_cons_self now rest) n (List.mem_cons_of_mem now hn)
    have hwin2 : ∀ x ∈ rest, ∀ y ∈ rest, y - x < RATE_LIMIT_WINDOW :=
      fun x hx y hy =>
        hwin x (List.mem_cons_of_mem now hx) y (List.mem_cons_of_mem now hy)
    have hlen2 : (times ++ [now]).length + rest.length ≤ RATE_LIMIT_MAX_REQUESTS := by
      simp only [List.length_append, List.length_cons, List.length_nil] at hlen ⊢
      omega
    have hrest := ih (times ++ [now]) htimes2 hwin2 hlen2
    simp only [run_calls, hcall, hrest, List.length_cons, List.replicate_succ]
    simp [List.append_assoc]

/-- C5: sliding-window behaviour of the per-client rate limiter: every call
first discards the client's timestamps older than the window (whatever the
store returns lies inside the window or is the current call); N ≤ 30 calls
inside one window from a fresh client all return true and are all recorded;
the 31st call in the same window returns false and appends no timestamp; and a
call after the whole window has elapsed is allowed again with the store reset
to just that call. -/
theorem check_rate_limit_window_spec :
    (∀ ts : List ℚ,
        (∀ x ∈ ts, ∀ y ∈ ts, y - x < RATE_LIMIT_WINDOW) →
        ts.length ≤ RATE_LIMIT_MAX_REQUESTS →
        run_calls ts [] = (List.replicate ts.length true, ts))
    ∧ (∀ (ts : List ℚ) (t2 : ℚ),
        (∀ x ∈ ts ++ [t2], ∀ y ∈ ts ++ [t2], y - x < RATE_LIMIT_WINDOW) →
        ts.length = RATE_LIMIT_MAX_REQUESTS →
        check_rate_limit t2 (run_calls ts []).2 = (false, ts))
    ∧ (∀ (now : ℚ) (times : List ℚ),
        (∀ t ∈ times, RATE_LIMIT_WINDOW ≤ now - t) →
        check_rate_limit now times = (true, [now]))
    ∧ (∀ (now : ℚ) (times : List ℚ) (t : ℚ),
        t ∈ (check_rate_limit now times).2 → now - t < RATE_LIMIT_WINDOW ∨ t = now) := by
  have hmain : ∀ ts : List ℚ,
      (∀ x ∈ ts, ∀ y ∈ ts, y - x < RATE_LIMIT_WINDOW) →
      ts.length ≤ RATE_LIMIT_MAX_REQUESTS →
      run_calls ts [] = (List.replicate ts.length true, ts) := by
    intro ts hwin hlen
    have := run_calls_all_allowed ts [] (by intro t ht; exact absurd ht (List.not_mem_nil t))
      hwin (by simpa using hlen)
    simpa using this
  refine ⟨hmain, ?_, ?_, ?_⟩
  · intro ts t2 hwin hlen
    have hw : ∀ x ∈ ts, ∀ y ∈ ts, y - x < RATE_LIMIT_WINDOW := by
      intro x hx y hy
      exact hwin x (List.mem_append_left _ hx) y (List.mem_append_left _ hy)
    rw [hmain ts hw (le_of_eq hlen)]
    have hprune : ∀ t ∈ ts, t2 - t < RATE_LIMIT_WINDOW := by
      intro t ht
      exact hwin t (List.mem_append_left _ ht)
        t2 (List.mem_append_right _ (List.mem_singleton_self t2))
    unfold check_rate_limit
    rw [pruneTimestamps_eq_self t2 ts hprune]
    rw [if_pos (le_of_eq hlen.symm)]
  · intro now times h
    unfold check_rate_limit
    have hempty : pruneTimestamps now times = [] := by
      unfold pruneTimestamps
      rw [List.filter_eq_nil_iff]
      intro t ht
      simp only [decide_eq_true_eq, not_lt]
      exact h t ht
    rw [hempty]
    rw [if_neg (by simp [RATE_LIMIT_MAX_REQUESTS])]
    rfl
  · intro now times t ht
    unfold check_rate_limit at ht
    by_cases hc : RATE_LIMIT_MAX_REQUESTS ≤ (pruneTimestamps now times).length
    · rw [if_pos hc] at ht
      left
      have := List.of_mem_filter ht
      simpa using this
    · rw [if_neg hc] at ht
      rcases List.mem_append.mp ht with h1 | h1
      · left
        have := List.of_mem_filter h1
        simpa using this
      · right
        exact List.mem_singleton.mp h1

/-- C5 witness: a client whose single stored timestamp is a full window old is
allowed again and left with only the fresh timestamp. -/
theorem check_rate_limit_window_spec_witness :
    (∀ t ∈ [(0 : ℚ)], RATE_LIMIT_WINDOW ≤ 100 - t)
      ∧ check_rate_limit 100 [0] = (true, [100]) := by
  have h : ∀ t ∈ [(0 : ℚ)], RATE_LIMIT_WINDOW ≤ 100 - t := by
    intro t ht
    rw [List.mem_singleton.mp ht]
    norm_num [RATE_LIMIT_WINDOW]
  exact ⟨h, check_rate_limit_window_spec.2.2.1 100 [0] h⟩

/-! ## Helper lemmas about prompt validation -/

theorem containsSub_subset (pat : List Char) : ∀ l : List Char,
    containsSub pat l = true → ∀ c ∈ pat, c ∈ l := by
  intro l
  induction l with
  | nil =>
    intro h c hc
    simp [containsSub, List.isEmpty_iff] at h
    rw [h] at hc
    exact absurd hc (List.not_mem_nil c)
  | cons a t ih =>
    intro h c hc
    simp only [containsSub, Bool.or_eq_true] at h
    rcases h with h | h
    · exact (List.isPrefixOf_iff_prefix.mp h).subset hc
    · exact List.mem_cons_of_mem a (ih h c hc)

theorem containsSub_eq_false_of_missing_char (pat l : List Char) (c : Char)
    (hc : c ∈ pat) (hl : c ∉ l) : containsSub pat l = false := by
  by_contra h
  rw [Bool.not_eq_false] at h
  exact hl (containsSub_subset pat l h c hc)

theorem dropWhile_replicate_a (n : Nat) :
    List.dropWhile isPySpace (List.replicate n 'a') = List.replicate n 'a' := by
  cases n with
  | zero => rfl
  | succ m =>
    rw [List.replicate_succ, List.dropWhile_cons]
    have h : isPySpace 'a' = false := by decide
    simp [h]

/-- The prompt exhibiting the pre-trim length check: one leading space followed
by `MAX_PROMPT_LENGTH` letters, so the trimmed length is exactly the maximum
but the raw length exceeds it. -/
def c6_prompt : List Char := ' ' :: List.replicate MAX_PROMPT_LENGTH 'a'

theorem c6_mem (c : Char) (h : c ∈ c6_prompt) : c = ' ' ∨ c = 'a' := by
  unfold c6_prompt at h
  rcases List.mem_cons.mp h with h | h
  · exact Or.inl h
  · exact Or.inr (List.eq_of_mem_replicate h)

theorem c6_lower : pyLower c6_prompt = c6_prompt := by
  unfold pyLower c6_prompt
  have h1 : pyLowerChar ' ' = ' ' := by decide
  have h2 : pyLowerChar 'a' = 'a' := by decide
  rw [List.map_cons, List.map_replicate, h1, h2]

theorem c6_strip : pyStrip c6_prompt = List.replicate MAX_PROMPT_LENGTH 'a' := by
  unfold pyStrip pyLStrip pyRStrip c6_prompt
  rw [List.dropWhile_cons]
  have hsp : isPySpace ' ' = true := by decide
  simp only [hsp, if_pos]
  rw [dropWhile_replicate_a, List.reverse_replicate, dropWhile_replicate_a,
    List.reverse_replicate]

theorem c6_no_pattern (pat : List Char) (c : Char) (hc : c ∈ pat)
    (hsp : c ≠ ' ') (ha : c ≠ 'a') :
    containsSub pat (pyLower c6_prompt) = false := by
  apply containsSub_eq_false_of_missing_char pat _ c hc
  rw [c6_lower]
  intro hmem
  rcases c6_mem c hmem with h | h
  · exact hsp h
  · exact ha h

/-- C6 counterexample: a prompt whose trimmed length is exactly
`MAX_PROMPT_LENGTH` (and which contains no blacklisted phrase) is still
rejected, because the pydantic length bound applies to the raw, untrimmed
prompt. -/
theorem prompt_length_pretrim_cex :
    0 < (pyStrip c6_prompt).length
      ∧ (pyStrip c6_prompt).length ≤ MAX_PROMPT_LENGTH
      ∧ containsSub "ignore previous instructions".toList (pyLower c6_prompt) = false
      ∧ containsSub "disregard system prompt".toList (pyLower c6_prompt) = false
      ∧ containsSub "override instructions".toList (pyLower c6_prompt) = false
      ∧ containsSub "bypass security".toList (pyLower c6_prompt) = false
      ∧ prompt_accepted c6_prompt = false := by
  have hstriplen : (pyStrip c6_prompt).length = MAX_PROMPT_LENGTH := by
    rw [c6_strip, List.length_replicate]
  refine ⟨?_, ?_, ?_, ?_, ?_, ?_, ?_⟩
  · rw [hstriplen]
    norm_num [MAX_PROMPT_LENGTH]
  · rw [hstriplen]
  · exact c6_no_pattern _ 'i' (by decide) (by decide) (by decide)
  · exact c6_no_pattern _ 'd' (by decide) (by decide) (by decide)
  · exact c6_no_pattern _ 'v' (by decide) (by decide) (by decide)
  · exact c6_no_pattern _ 'b' (by decide) (by decide) (by decide)
  · have hlen : c6_prompt.length = MAX_PROMPT_LENGTH + 1 := by
      unfold c6_prompt
      rw [List.length_cons, List.length_replicate]
    have hfo : prompt_field_ok c6_prompt = false := by
      unfold prompt_field_ok
      rw [hlen]
      norm_num [MAX_PROMPT_LENGTH]
    unfold prompt_accepted
    rw [hfo]
    rfl

/-- C6 (amended): `ChatRequest` accepts a prompt when its raw (untrimmed)
length lies in `(0, MAX_PROMPT_LENGTH]`, it is non-empty after trimming, and no
blacklisted phrase occurs case-insensitively in the trimmed value; a prompt
that is empty after trimming is always rejected.  (The original claim's length
bound on the trimmed prompt is refuted by the counterexample: the bound is
applied before trimming.) -/
theorem validate_prompt_spec (p : List Char) :
    (1 ≤ p.length → p.length ≤ MAX_PROMPT_LENGTH → pyStrip p ≠ [] →
      (∀ pat ∈ suspicious_patterns, containsSub pat (pyLower (pyStrip p)) = false) →
      prompt_accepted p = true)
    ∧ (pyStrip p = [] → prompt_accepted p = false) := by
  constructor
  · intro h1 h2 hne hpat
    unfold prompt_accepted prompt_field_ok
    rw [decide_eq_true h1, decide_eq_true h2]
    unfold validate_prompt
    have hempty : (pyStrip p).isEmpty = false := by
      cases hs : pyStrip p with
      | nil => exact absurd hs hne
      | cons a t => rfl
    have hany : suspicious_patterns.any
        (fun pat => containsSub pat (pyLower (pyStrip p))) = false := by
      rw [List.any_eq_false]
      intro pat hp
      simp [hpat pat hp]
    simp [hempty, hany]
  · intro h
    unfold prompt_accepted validate_prompt
    rw [h]
    simp

/-- C6 witness: a short clean prompt is accepted. -/
theorem validate_prompt_spec_witness : prompt_accepted "hello".toList = true :=
  (validate_prompt_spec "hello".toList).1 (by decide) (by decide) (by decide) (by decide)

/-! ## Helper lemmas about stripping and fence extraction -/

theorem dropWhile_head_false (p : Char → Bool) (l : List Char) (a : Char) (t : List Char)
    (h : l.dropWhile p = a :: t) : p a = false := by
  induction l with
  | nil => simp [List.dropWhile] at h
  | cons c cs ih =>
    rw [List.dropWhile_cons] at h
    by_cases hc : p c = true
    · rw [if_pos hc] at h
      exact ih h
    · rw [if_neg hc] at h
      have hac : a = c := (List.cons.inj h.symm).1
      rw [hac]
      exact Bool.not_eq_true (p c) |>.mp hc

theorem pyRStrip_prefix_self (l : List Char) : pyRStrip l <+: l :=
  List.rdropWhile_prefix isPySpace l

theorem pyRStrip_idem (l : List Char) : pyRStrip (pyRStrip l) = pyRStrip l :=
  List.rdropWhile_idempotent isPySpace l

theorem pyLStrip_of_stripped (l : List Char) :
    pyLStrip (pyRStrip (pyLStrip l)) = pyRStrip (pyLStrip l) := by
  cases hs : pyRStrip (pyLStrip l) with
  | nil => rfl
  | cons a t =>
    have hpre : pyRStrip (pyLStrip l) <+: pyLStrip l := pyRStrip_prefix_self _
    rw [hs] at hpre
    obtain ⟨rest, hrest⟩ := hpre
    have hd : l.dropWhile isPySpace = a :: (t ++ rest) := by
      have : pyLStrip l = a :: (t ++ rest) := by
        rw [← hrest]
        simp
      exact this
    have hna : isPySpace a = false := dropWhile_head_false isPySpace l a (t ++ rest) hd
    unfold pyLStrip
    rw [List.dropWhile_cons, hna]
    simp

theorem pyStrip_idem (l : List Char) : pyStrip (pyStrip l) = pyStrip l := by
  show pyRStrip (pyLStrip (pyRStrip (pyLStrip l))) = pyRStrip (pyLStrip l)
  rw [pyLStrip_of_stripped, pyRStrip_idem]

theorem pyStrip_infix_self (l : List Char) : pyStrip l <:+: l :=
  (pyRStrip_prefix_self (pyLStrip l)).isInfix.trans (List.dropWhile_suffix isPySpace).isInfix

theorem extractAux_eq_none (t : List Char) (h : ¬ hasFenceMark t) : extractAux t = none := by
  induction t with
  | nil => rfl
  | cons c cs ih =>
    have hp : fenceMark.isPrefixOf (c :: cs) = false := by
      by_contra hcon
      rw [Bool.not_eq_false] at hcon
      exact h (List.isPrefixOf_iff_prefix.mp hcon).isInfix
    unfold extractAux
    rw [hp]
    simp only [Bool.false_eq_true, if_false]
    exact ih (fun hcon => h (List.infix_cons hcon))

theorem findClose_append (post : List Char) : ∀ x : List Char, btick ∉ x →
    findClose (x ++ (fenceMark ++ post)) = some x := by
  intro x
  induction x with
  | nil =>
    intro _
    have hpre : fenceMark.isPrefixOf (btick :: ([btick, btick] ++ post)) = true :=
      List.isPrefixOf_iff_prefix.mpr ⟨post, rfl⟩
    show findClose (btick :: ([btick, btick] ++ post)) = some []
    unfold findClose
    rw [hpre]
    rfl
  | cons c cs ih =>
    intro hx
    have hc : c ≠ btick := fun hcc => hx (hcc ▸ List.mem_cons_self c cs)
    have hpre : fenceMark.isPrefixOf (c :: (cs ++ (fenceMark ++ post))) = false := by
      by_contra hcon
      rw [Bool.not_eq_false] at hcon
      obtain ⟨t, ht⟩ := List.isPrefixOf_iff_prefix.mp hcon
      have hh := congrArg List.head? ht
      simp [fenceMark] at hh
      exact hc hh.symm
    show findClose (c :: (cs ++ (fenceMark ++ post))) = some (c :: cs)
    unfold findClose
    rw [hpre]
    simp only [Bool.false_eq_true, if_false]
    rw [ih (fun hm => hx (List.mem_cons_of_mem c hm))]
    rfl

theorem jsonTag_prefix_append (inner rest : List Char) :
    jsonTag.isPrefixOf (inner ++ (fenceMark ++ rest)) = jsonTag.isPrefixOf inner := by
  by_cases hj : jsonTag.isPrefixOf inner = true
  · rw [hj]
    obtain ⟨t, ht⟩ := List.isPrefixOf_iff_prefix.mp hj
    exact List.isPrefixOf_iff_prefix.mpr ⟨t ++ (fenceMark ++ rest), by
      rw [← List.append_assoc, ht]⟩
  · rw [Bool.not_eq_true] at hj
    rw [hj]
    rw [Bool.eq_false_iff]
    intro hcon
    have hp : jsonTag <+: inner ++ (fenceMark ++ rest) := List.isPrefixOf_iff_prefix.mp hcon
    by_cases hlen : 4 ≤ inner.length
    · have h2 : inner <+: inner ++ (fenceMark ++ rest) := ⟨fenceMark ++ rest, rfl⟩
      have hjl : jsonTag.length = 4 := rfl
      have := List.prefix_of_prefix_length_le hp h2 (by rw [hjl]; exact hlen)
      rw [← List.isPrefixOf_iff_prefix] at this
      rw [this] at hj
      exact Bool.true_eq_false.mp hj
    · push_neg at hlen
      have hjl : jsonTag.length = 4 := rfl
      have heq : jsonTag = (inner ++ (fenceMark ++ rest)).take 4 := by
        have := List.prefix_iff_eq_take.mp hp
        rwa [hjl] at this
      rw [List.take_append_eq_append_take] at heq
      rw [List.take_of_length_le (Nat.le_of_lt hlen)] at heq
      have hmem : btick ∈ jsonTag := by
        rw [heq]
        apply List.mem_append_right
        rcases hn : 4 - inner.length with _ | m
        · omega
        · rw [show fenceMark ++ rest = btick :: ([btick, btick] ++ rest) from rfl]
          rw [List.take_succ_cons]
          exact List.mem_cons_self btick _
      exact absurd hmem (by decide)

theorem dropWhile_ws_append (x rest : List Char) :
    (x ++ (fenceMark ++ rest)).dropWhile isPySpace
      = x.dropWhile isPySpace ++ (fenceMark ++ rest) := by
  rw [List.dropWhile_append]
  by_cases h : (x.dropWhile isPySpace).isEmpty
  · rw [if_pos h]
    rw [List.isEmpty_iff.mp h]
    rw [show fenceMark ++ rest = btick :: ([btick, btick] ++ rest) from rfl]
    rw [List.dropWhile_cons]
    have hb : isPySpace btick = false := by decide
    rw [hb]
    simp
  · rw [if_neg h]

theorem matchFence_append (inner post : List Char) (hinner : btick ∉ inner) :
    matchFence (inner ++ (fenceMark ++ post)) = some (innerCapture inner) := by
  unfold matchFence innerCapture
  rw [jsonTag_prefix_append inner post]
  by_cases hj : jsonTag.isPrefixOf inner = true
  · rw [hj]
    simp only [if_true]
    have hlen4 : 4 ≤ inner.length := by
      have := (List.isPrefixOf_iff_prefix.mp hj).length_le
      exact this
    rw [List.drop_append_of_le_length hlen4]
    rw [dropWhile_ws_append]
    rw [findClose_append post _ (fun hm =>
      hinner ((List.dropWhile_suffix isPySpace).subset (by exact hm) |> List.drop_subset 4 inner))]
    rfl
  · rw [Bool.not_eq_true] at hj
    rw [hj]
    simp only [Bool.false_eq_true, if_false]
    rw [dropWhile_ws_append]
    rw [findClose_append post _ (fun hm =>
      hinner ((List.dropWhile_suffix isPySpace).subset hm))]
    rfl

theorem extractAux_fence (pre : List Char) : ∀ inner post : List Char,
    btick ∉ pre → btick ∉ inner →
    extractAux (pre ++ (fenceMark ++ (inner ++ (fenceMark ++ post))))
      = some (innerCapture inner) := by
  induction pre with
  | nil =>
    intro inner post _ hinner
    show extractAux (btick :: ([btick, btick] ++ (inner ++ (fenceMark ++ post)))) = _
    have hpre : fenceMark.isPrefixOf
        (btick :: ([btick, btick] ++ (inner ++ (fenceMark ++ post)))) = true :=
      List.isPrefixOf_iff_prefix.mpr ⟨inner ++ (fenceMark ++ post), rfl⟩
    unfold extractAux
    rw [hpre]
    simp only [if_true]
    rw [show List.drop 3 (btick :: ([btick, btick] ++ (inner ++ (fenceMark ++ post))))
        = inner ++ (fenceMark ++ post) from rfl]
    rw [matchFence_append inner post hinner]
  | cons c cs ih =>
    intro inner post hpre hinner
    have hc : c ≠ btick := fun h => hpre (h ▸ List.mem_cons_self c cs)
    have hnp : fenceMark.isPrefixOf
        (c :: (cs ++ (fenceMark ++ (inner ++ (fenceMark ++ post))))) = false := by
      by_contra hcon
      rw [Bool.not_eq_false] at hcon
      obtain ⟨t, ht⟩ := List.isPrefixOf_iff_prefix.mp hcon
      have hh := congrArg List.head? ht
      simp [fenceMark] at hh
      exact hc hh.symm
    show extractAux (c :: (cs ++ (fenceMark ++ (inner ++ (fenceMark ++ post))))) = _
    unfold extractAux
    rw [hnp]
    simp only [Bool.false_eq_true, if_false]
    exact ih inner post (fun hm => hpre (List.mem_cons_of_mem c hm)) hinner

/-- C7: `extract` returns the inner content of the first fenced block when the
text contains one — optional `json` tag dropped and whitespace adjacent to the
fences stripped, whatever precedes or follows the block — and the trimmed full
text when the text contains no fence; consequently `extract` is idempotent on
fence-free text. -/
theorem extract_first_fence_spec :
    (∀ pre inner post : List Char, btick ∉ pre → btick ∉ inner →
        extract (pre ++ (fenceMark ++ (inner ++ (fenceMark ++ post))))
          = innerCapture inner)
    ∧ (∀ s : List Char, ¬ hasFenceMark s → extract s = pyStrip s)
    ∧ (∀ s : List Char, ¬ hasFenceMark s → extract (extract s) = extract s) := by
  have hnf : ∀ s, ¬ hasFenceMark s → extract s = pyStrip s := by
    intro s h
    unfold extract
    rw [extractAux_eq_none s h]
  refine ⟨?_, hnf, ?_⟩
  · intro pre inner post hpre hinner
    unfold extract
    rw [extractAux_fence pre inner post hpre hinner]
  · intro s h
    rw [hnf s h]
    have h2 : ¬ hasFenceMark (pyStrip s) := fun hf => h (hf.trans (pyStrip_infix_self s))
    rw [hnf _ h2, pyStrip_idem]

/-- C7 witness: a prose-wrapped `json`-tagged fence is reduced to its inner
JSON, and an unfenced payload is merely trimmed, idempotently. -/
theorem extract_first_fence_spec_witness :
    btick ∉ "See: ".toList
      ∧ btick ∉ "json\n \x7b\"a\": 1\x7d \n".toList
      ∧ extract ("See: ".toList
            ++ (fenceMark ++ ("json\n \x7b\"a\": 1\x7d \n".toList
            ++ (fenceMark ++ " done".toList))))
          = innerCapture "json\n \x7b\"a\": 1\x7d \n".toList
      ∧ innerCapture "json\n \x7b\"a\": 1\x7d \n".toList = "\x7b\"a\": 1\x7d".toList
      ∧ ¬ hasFenceMark "  \x7b\"a\": 1\x7d ".toList
      ∧ extract (extract "  \x7b\"a\": 1\x7d ".toList) = extract "  \x7b\"a\": 1\x7d ".toList := by
  refine ⟨by decide, by decide,
    extract_first_fence_spec.1 _ _ " done".toList (by decide) (by decide),
    by decide, by decide,
    extract_first_fence_spec.2.2 _ (by decide)⟩
